import Mathlib

/-
Shallow embedding of the authentication/token subsystem of the blog-api
repository (src/domain/entities/User.ts, the TokenService in
src/domain/repositories/PostRepository.ts, src/auth/services/PasswordService.ts,
src/infrastructure/repositories/MongooseUserRepository.ts,
src/application/usecases/auth/LoginUser.ts,
src/application/usecases/auth/RefreshToken.ts, and the ValidateToken use case).

Modelling conventions:
- Dates are Nat milliseconds since epoch; the JS comparison
  tokenData.expiresAt > new Date() becomes now < td.expiresAt.
- Async methods that can reject are embedded as Except String results; a
  method that catches a rejection matches on .error.
- The JWT library (jsonwebtoken) and bcryptjs are external: the embedding is
  parameterised over the outcome of their calls (verifyToken, the bcrypt
  compare outcome), exactly at the call sites the TypeScript code awaits.
- Use cases additionally return the ordered list of user-repository
  operations they invoked (RepoOp trace); the store semantics of each
  operation (applyOp) is the embedding of MongooseUserRepository acting on
  an in-memory list of user documents.
-/

namespace BlogApi

/-- Permission enum from src/domain/entities/User.ts. -/
inductive Permission
  | READ_POSTS
  | CREATE_POSTS
  | ADMIN
deriving DecidableEq

/-- String value of each Permission enum member. -/
def Permission.value : Permission → String
  | .READ_POSTS => "read:posts"
  | .CREATE_POSTS => "create:posts"
  | .ADMIN => "admin"

/-- TokenType enum from src/domain/entities/User.ts. -/
inductive TokenType
  | ACCESS
  | ADMIN
  | REFRESH
deriving DecidableEq

/-- String value of each TokenType enum member. -/
def TokenType.value : TokenType → String
  | .ACCESS => "access"
  | .ADMIN => "admin"
  | .REFRESH => "refresh"

/-- RefreshTokenData from src/domain/entities/User.ts: one stored entry of a
user refreshTokens collection. -/
structure RefreshTokenData where
  token : String
  expiresAt : Nat
  createdAt : Nat
deriving DecidableEq

/-- User entity from src/domain/entities/User.ts (createdAt/updatedAt
lifecycle timestamps omitted: no claim mentions them). -/
structure User where
  id : String
  email : String
  passwordHash : String
  permissions : List Permission
  refreshTokens : List RefreshTokenData
deriving DecidableEq

/-- TokenPayload from src/domain/entities/User.ts. -/
structure TokenPayload where
  userId : String
  email : String
  permissions : List Permission
  type : TokenType
  iat : Nat
  exp : Nat
deriving DecidableEq

/-- The user projection returned by the auth flows (id, email, permissions:
passwordHash and refreshTokens are never included). -/
structure AuthUserView where
  id : String
  email : String
  permissions : List Permission
deriving DecidableEq

/-- AuthResponse from src/domain/entities/User.ts (optional adminToken
omitted: the embedded flows never set it). -/
structure AuthResponse where
  user : AuthUserView
  accessToken : String
  refreshToken : String
deriving DecidableEq

/-- TokenService.hasPermission: payload.permissions.includes(required). -/
def TokenService.hasPermission (payload : TokenPayload) (required : Permission) : Bool :=
  payload.permissions.contains required

/-- TokenService.isTokenType: payload.type === tokenType. -/
def TokenService.isTokenType (payload : TokenPayload) (tokenType : TokenType) : Bool :=
  payload.type == tokenType

/-- Model of the JS String.split with a single-character separator, on the
character list of the string: "a b".split(" ") = ["a","b"], "".split(" ") =
[""], "a ".split(" ") = ["a",""]. -/
def splitChar (sep : Char) : List Char → List (List Char)
  | [] => [[]]
  | c :: cs =>
    match splitChar sep cs with
    | [] => [[c]]
    | h :: t => if c = sep then [] :: h :: t else (c :: h) :: t

/-- The parts check of extractTokenFromHeader: parts.length !== 2 or
parts[0] !== "Bearer" gives null, otherwise parts[1]. -/
def bearerParts : List (List Char) → Option String
  | [p0, p1] => if p0 = "Bearer".data then some (String.mk p1) else none
  | _ => none

/-- TokenService.extractTokenFromHeader (src/domain/repositories/
PostRepository.ts lines 175-186): undefined or empty header gives null
(JS falsiness), then parts = header.split(" ") must have exactly two
segments with the first equal to "Bearer". -/
def TokenService.extractTokenFromHeader (authHeader : Option String) : Option String :=
  match authHeader with
  | none => none
  | some h =>
    if h = "" then none
    else bearerParts (splitChar ' ' h.data)

/-- Character class of the email regex in LoginUser.isValidEmail:
[^\s@], i.e. not the at sign and not whitespace. -/
def emailChar (c : Char) : Bool := !(c == '@') && !c.isWhitespace

/-- One candidate decomposition of the string as a ++ "@" ++ b ++ "." ++ c
with the at sign at index i and the dot at index j, matching
/^[^\s@]+@[^\s@]+\.[^\s@]+$/ : a, b, c nonempty and made of emailChar
characters. -/
def emailDecompAt (cs : List Char) (i j : Nat) : Bool :=
  let a := cs.take i
  let b := (cs.drop (i + 1)).take (j - (i + 1))
  let c := cs.drop (j + 1)
  decide (cs = a ++ '@' :: (b ++ '.' :: c)) &&
  decide (a ≠ []) && decide (b ≠ []) && decide (c ≠ []) &&
  a.all emailChar && b.all emailChar && c.all emailChar

/-- LoginUser.isValidEmail (src/application/usecases/auth/LoginUser.ts lines
85-88): the regex /^[^\s@]+@[^\s@]+\.[^\s@]+$/ accepts the string iff some
decomposition a ++ "@" ++ b ++ "." ++ c with nonempty [^\s@]+ segments
exists; the search ranges over all positions of the at sign and dot. -/
def isValidEmail (email : String) : Bool :=
  (List.range email.data.length).any fun i =>
    (List.range email.data.length).any fun j =>
      emailDecompAt email.data i j

/-- PasswordService.verify (src/auth/services/PasswordService.ts lines
25-31), parameterised over the outcome of the awaited bcrypt.compare call:
a resolved boolean is returned as is; a rejection is caught and re-thrown
as a typed error prefixed with a fixed message (the Error branch of the
template literal; a non-Error throwable would use the text
"Invalid hash format" instead, not modelled since no claim reaches it). -/
def PasswordService.verify (compareOutcome : Except String Bool) : Except String Bool :=
  match compareOutcome with
  | .ok b => .ok b
  | .error e => .error ("Failed to verify password: " ++ e)

/-- One invocation of a user-repository operation, as performed by the auth
use cases. cleanExpiredTokens records the Date at invocation time. -/
inductive RepoOp
  | findById (id : String)
  | findByEmail (email : String)
  | cleanExpiredTokens (id : String) (now : Nat)
  | addRefreshToken (id : String) (td : RefreshTokenData)
  | removeRefreshToken (id : String) (token : String)
deriving DecidableEq

/-- Whether the operation mutates the user store (the finders are pure
reads; the three token-collection operations write). -/
def RepoOp.isMutating : RepoOp → Bool
  | .findById _ => false
  | .findByEmail _ => false
  | .cleanExpiredTokens _ _ => true
  | .addRefreshToken _ _ => true
  | .removeRefreshToken _ _ => true

/-- In-memory user store: the list of user documents. -/
def findUserById (s : List User) (id : String) : Option User :=
  s.find? fun u => u.id == id

/-- Lookup by email (exact match at the domain level). -/
def findUserByEmail (s : List User) (email : String) : Option User :=
  s.find? fun u => u.email == email

/-- Apply an update function to the user document with the given id
(MongooseUserRepository updates the single document matching _id). -/
def updateUser (s : List User) (id : String) (f : User → User) : List User :=
  s.map fun u => if u.id == id then f u else u

/-- Document update performed by cleanExpiredTokens: pull every entry with
expiresAt strictly below now (the Mongo lt operator). -/
def cleanFn (now : Nat) : User → User :=
  fun u => { u with refreshTokens := u.refreshTokens.filter fun td => !(td.expiresAt < now) }

/-- Document update performed by removeRefreshToken: pull every entry with
the given token string. -/
def removeFn (tok : String) : User → User :=
  fun u => { u with refreshTokens := u.refreshTokens.filter fun td => !(td.token == tok) }

/-- Document update performed by addRefreshToken: push the entry at the
end. -/
def addFn (td : RefreshTokenData) : User → User :=
  fun u => { u with refreshTokens := u.refreshTokens ++ [td] }

/-- Store semantics of each repository operation, following
MongooseUserRepository. -/
def applyOp (s : List User) : RepoOp → List User
  | .findById _ => s
  | .findByEmail _ => s
  | .cleanExpiredTokens id now => updateUser s id (cleanFn now)
  | .addRefreshToken id td => updateUser s id (addFn td)
  | .removeRefreshToken id tok => updateUser s id (removeFn tok)

/-- Run a trace of repository operations on a store, in order. -/
def runOps (s : List User) (ops : List RepoOp) : List User :=
  ops.foldl applyOp s

/-- The findById dependency as backed by an in-memory store; it never
rejects (MongooseUserRepository.findById catches and returns null). -/
def storeFindById (s : List User) : String → Except String (Option User) :=
  fun id => .ok (findUserById s id)

/-- MongooseUserRepository.findById (lines 33-44): awaits the database
lookup inside try/catch; a rejection is caught, logged and turned into
null; a resolved document is returned as the domain entity. The db
argument is the outcome of the UserModel.findById(...).exec() call. -/
def MongooseUserRepository.findById
    (db : String → Except String (Option User)) (id : String) : Option User :=
  match db id with
  | .ok r => r
  | .error _ => none

/-- MongooseUserRepository.findByEmail (lines 49-60): same catch-to-null
shape; the query lowercases the email before the lookup. -/
def MongooseUserRepository.findByEmail
    (db : String → Except String (Option User)) (email : String) : Option User :=
  match db email.toLower with
  | .ok r => r
  | .error _ => none

/-- LoginUser.execute (src/application/usecases/auth/LoginUser.ts lines
19-83), embedded over the in-memory store with a repository-operation
trace. pverify is the resolved boolean of passwordService.verify;
genAccess and genRefresh are the (pure, stateless) token generators. The
outer catch of the source logs and re-throws unchanged, so the Except
error values are exactly the thrown messages. -/
def LoginUser.execute
    (pverify : String → String → Bool)
    (genAccess genRefresh : User → String)
    (now : Nat) (s : List User)
    (email password : String) : Except String AuthResponse × List RepoOp :=
  if email = "" ∨ password = "" then
    (.error "Email and password are required", [])
  else if !(isValidEmail email) then
    (.error "Invalid email format", [])
  else
    match findUserByEmail s email with
    | none => (.error "Invalid email or password", [.findByEmail email])
    | some user =>
      if !(pverify password user.passwordHash) then
        (.error "Invalid email or password", [.findByEmail email])
      else
        (.ok { user := { id := user.id, email := user.email, permissions := user.permissions },
               accessToken := genAccess user,
               refreshToken := genRefresh user },
         [.findByEmail email,
          .cleanExpiredTokens user.id now,
          .addRefreshToken user.id { token := genRefresh user, expiresAt := now + 604800000, createdAt := now }])

/-- RefreshToken.execute (src/application/usecases/auth/RefreshToken.ts
lines 16-90), embedded over the in-memory store with an operation trace.
verifyToken is the outcome of tokenService.verifyToken (the inner catch
maps any rejection to the uniform message); the stored-token check is
tokenData.token === refreshToken AND tokenData.expiresAt > new Date();
rotation removes the old token, then adds the new one with expiry
now + 7 days (604800000 ms). -/
def RefreshToken.execute
    (verifyToken : String → Except String TokenPayload)
    (genAccess genRefresh : User → String)
    (now : Nat) (s : List User)
    (refreshToken : String) : Except String AuthResponse × List RepoOp :=
  if refreshToken = "" then
    (.error "Refresh token is required", [])
  else
    match verifyToken refreshToken with
    | .error _ => (.error "Invalid or expired refresh token", [])
    | .ok payload =>
      match findUserById s payload.userId with
      | none => (.error "User not found", [.findById payload.userId])
      | some user =>
        if !(user.refreshTokens.any fun td => td.token == refreshToken && decide (now < td.expiresAt)) then
          (.error "Invalid or expired refresh token", [.findById payload.userId])
        else
          (.ok { user := { id := user.id, email := user.email, permissions := user.permissions },
                 accessToken := genAccess user,
                 refreshToken := genRefresh user },
           [.findById payload.userId,
            .cleanExpiredTokens user.id now,
            .removeRefreshToken user.id refreshToken,
            .addRefreshToken user.id { token := genRefresh user, expiresAt := now + 604800000, createdAt := now }])

/-- Input of the ValidateToken use case. -/
structure ValidateTokenRequest where
  token : String
  requiredPermission : Option Permission
  requiredTokenType : Option TokenType
deriving DecidableEq

/-- Tagged result of the ValidateToken use case. -/
structure ValidateTokenResponse where
  isValid : Bool
  payload : Option TokenPayload
  user : Option AuthUserView
  error : Option String
deriving DecidableEq

/-- ValidateToken steps 5-7 after a successful user lookup: the stateful
stored-token check runs only for refresh-type payloads; otherwise (and on
a passing check) the result is valid with the payload and the user
projection. -/
def ValidateToken.afterUser
    (payload : TokenPayload) (now : Nat) (token : String) (user : User) :
    ValidateTokenResponse :=
  if payload.type == TokenType.REFRESH &&
     !(user.refreshTokens.any fun td => td.token == token && decide (now < td.expiresAt)) then
    { isValid := false, payload := none, user := none,
      error := some "Refresh token not found or expired" }
  else
    { isValid := true, payload := some payload,
      user := some { id := user.id, email := user.email, permissions := user.permissions },
      error := none }

/-- ValidateToken step 5: the awaited userRepository.findById call. This is
the only operation inside the try block that can reject; the outer catch
of the source converts such a rejection into the tagged
"Token validation failed" result (part_011 lines 125-133). -/
def ValidateToken.lookupStep
    (findById : String → Except String (Option User))
    (payload : TokenPayload) (now : Nat) (token : String) :
    ValidateTokenResponse × List RepoOp :=
  match findById payload.userId with
  | .error _ =>
    ({ isValid := false, payload := none, user := none,
       error := some "Token validation failed" }, [.findById payload.userId])
  | .ok none =>
    ({ isValid := false, payload := none, user := none,
       error := some "User not found" }, [.findById payload.userId])
  | .ok (some user) =>
    (ValidateToken.afterUser payload now token user, [.findById payload.userId])

/-- ValidateToken step 4: optional permission requirement. -/
def ValidateToken.checkPermission
    (findById : String → Except String (Option User))
    (payload : TokenPayload) (now : Nat) (req : ValidateTokenRequest) :
    ValidateTokenResponse × List RepoOp :=
  match req.requiredPermission with
  | some p =>
    if !(TokenService.hasPermission payload p) then
      ({ isValid := false, payload := none, user := none,
         error := some ("Permission " ++ p.value ++ " required") }, [])
    else
      ValidateToken.lookupStep findById payload now req.token
  | none => ValidateToken.lookupStep findById payload now req.token

/-- ValidateToken step 3: optional token-type requirement. -/
def ValidateToken.checkType
    (findById : String → Except String (Option User))
    (payload : TokenPayload) (now : Nat) (req : ValidateTokenRequest) :
    ValidateTokenResponse × List RepoOp :=
  match req.requiredTokenType with
  | some tt =>
    if !(TokenService.isTokenType payload tt) then
      ({ isValid := false, payload := none, user := none,
         error := some ("Token type " ++ tt.value ++ " required") }, [])
    else
      ValidateToken.checkPermission findById payload now req
  | none => ValidateToken.checkPermission findById payload now req

/-- ValidateToken.execute (part_011 lines 30-134), embedded over an
abstract findById dependency (so that throwing repositories are covered)
with an operation trace. The function is total: it always returns a
tagged ValidateTokenResponse, never an Except. -/
def ValidateToken.execute
    (verifyToken : String → Except String TokenPayload)
    (findById : String → Except String (Option User))
    (now : Nat) (req : ValidateTokenRequest) :
    ValidateTokenResponse × List RepoOp :=
  if req.token = "" then
    ({ isValid := false, payload := none, user := none,
       error := some "Token is required" }, [])
  else
    match verifyToken req.token with
    | .error _ =>
      ({ isValid := false, payload := none, user := none,
         error := some "Invalid or expired token" }, [])
    | .ok payload => ValidateToken.checkType findById payload now req

/-- The user document after one refresh rotation at time now with the
presented token tok replaced by newTok: expired entries cleaned, every
entry carrying tok removed, the new entry appended with expiry
now + 7 days. -/
def afterRotation (u : User) (tok : String) (now : Nat) (newTok : String) : User :=
  addFn { token := newTok, expiresAt := now + 604800000, createdAt := now }
    (removeFn tok (cleanFn now u))

/-- Sample user document for concrete instantiations. -/
def sampleUser : User :=
  { id := "u1", email := "u@x.com", passwordHash := "h",
    permissions := [Permission.READ_POSTS],
    refreshTokens := [{ token := "t1", expiresAt := 1000, createdAt := 0 }] }

/-- Sample refresh-type token payload for the sample user. -/
def sampleRefreshPayload : TokenPayload :=
  { userId := "u1", email := "u@x.com", permissions := [Permission.READ_POSTS],
    type := TokenType.REFRESH, iat := 0, exp := 1000 }

/-- Sample access-type token payload for the sample user. -/
def sampleAccessPayload : TokenPayload :=
  { userId := "u1", email := "u@x.com", permissions := [Permission.READ_POSTS],
    type := TokenType.ACCESS, iat := 0, exp := 1000 }

/-- Sample token codec outcome: the strings t1 and t2 verify to the sample
refresh payload, everything else is rejected. -/
def sampleVerify : String → Except String TokenPayload := fun tok =>
  if tok = "t1" then .ok sampleRefreshPayload
  else if tok = "t2" then .ok sampleRefreshPayload
  else .error "Invalid token: signature mismatch"

theorem splitChar_ne_nil (sep : Char) (l : List Char) : splitChar sep l ≠ [] := by
  induction l with
  | nil => simp [splitChar]
  | cons c cs ih =>
    simp only [splitChar]
    cases h : splitChar sep cs with
    | nil => simp
    | cons h1 t => by_cases hc : c = sep <;> simp [hc]

theorem splitChar_eq_singleton_iff (sep : Char) (l b : List Char) :
    splitChar sep l = [b] ↔ l = b ∧ sep ∉ b := by
  induction l generalizing b with
  | nil =>
    constructor
    · intro h
      injection h with h1
      exact ⟨h1, by rw [← h1]; exact List.not_mem_nil sep⟩
    · rintro ⟨h1, -⟩
      rw [← h1]
      rfl
  | cons c cs ih =>
    simp only [splitChar]
    cases hr : splitChar sep cs with
    | nil => exact absurd hr (splitChar_ne_nil sep cs)
    | cons h1 t =>
      show (if c = sep then [] :: h1 :: t else (c :: h1) :: t) = [b] ↔ c :: cs = b ∧ sep ∉ b
      by_cases hc : c = sep
      · rw [if_pos hc]
        subst hc
        constructor
        · intro h
          injection h with _ h2
          exact absurd h2 (by simp)
        · rintro ⟨hb, hnb⟩
          exact absurd (hb ▸ List.mem_cons_self c cs) hnb
      · rw [if_neg hc]
        constructor
        · intro h
          injection h with e1 e2
          have hs : splitChar sep cs = [h1] := by rw [hr, e2]
          obtain ⟨hcs, hns⟩ := (ih h1).mp hs
          refine ⟨by rw [← e1, hcs], ?_⟩
          rw [← e1]
          intro hmem
          rcases List.mem_cons.mp hmem with h | h
          · exact hc h.symm
          · exact hns h
        · rintro ⟨hb, hnb⟩
          have hscs : sep ∉ cs := by
            intro hm
            exact hnb (hb ▸ List.mem_cons_of_mem c hm)
          have hs : splitChar sep cs = [cs] := (ih cs).mpr ⟨rfl, hscs⟩
          rw [hr] at hs
          injection hs with e1 e2
          rw [e1, e2, ← hb]

theorem splitChar_eq_pair_iff (sep : Char) (l : List Char) : ∀ a b : List Char,
    splitChar sep l = [a, b] ↔ l = a ++ sep :: b ∧ sep ∉ a ∧ sep ∉ b := by
  induction l with
  | nil =>
    intro a b
    constructor
    · intro h
      injection h with _ h2
      exact absurd h2 (by simp)
    · rintro ⟨hl, -, -⟩
      exact absurd hl (by simp)
  | cons c cs ih =>
    intro a b
    simp only [splitChar]
    cases hr : splitChar sep cs with
    | nil => exact absurd hr (splitChar_ne_nil sep cs)
    | cons h1 t =>
      show (if c = sep then [] :: h1 :: t else (c :: h1) :: t) = [a, b] ↔
        c :: cs = a ++ sep :: b ∧ sep ∉ a ∧ sep ∉ b
      by_cases hc : c = sep
      · rw [if_pos hc]
        subst hc
        constructor
        · intro h
          injection h with e1 e2
          have hs : splitChar c cs = [b] := by
            rw [hr]
            injection e2 with f1 f2
            rw [f1, f2]
          obtain ⟨hcs, hnb⟩ := (splitChar_eq_singleton_iff c cs b).mp hs
          refine ⟨?_, ?_, hnb⟩
          · rw [← e1, List.nil_append, hcs]
          · rw [← e1]
            exact List.not_mem_nil c
        · rintro ⟨hl, hna, hnb⟩
          cases a with
          | cons x a2 =>
            injection hl with e1 _
            exact absurd (by rw [e1]; exact List.mem_cons_self x a2) hna
          | nil =>
            rw [List.nil_append] at hl
            injection hl with _ e2
            have hs : splitChar c cs = [b] :=
              (splitChar_eq_singleton_iff c cs b).mpr ⟨e2, hnb⟩
            rw [hr] at hs
            rw [hs]
      · rw [if_neg hc]
        constructor
        · intro h
          injection h with e1 e2
          have hs : splitChar sep cs = [h1, b] := by rw [hr, e2]
          obtain ⟨hcs, hnh1, hnb⟩ := (ih h1 b).mp hs
          refine ⟨?_, ?_, hnb⟩
          · rw [← e1, hcs]
            rfl
          · rw [← e1]
            intro hm
            rcases List.mem_cons.mp hm with h | h
            · exact hc h.symm
            · exact hnh1 h
        · rintro ⟨hl, hna, hnb⟩
          cases a with
          | nil =>
            rw [List.nil_append] at hl
            injection hl with e1 _
            exact absurd e1 hc
          | cons x a2 =>
            injection hl with e1 e2
            have hna2 : sep ∉ a2 := fun hm => hna (List.mem_cons_of_mem x hm)
            have hs : splitChar sep cs = [a2, b] := (ih a2 b).mpr ⟨e2, hna2, hnb⟩
            rw [hr] at hs
            injection hs with f1 f2
            rw [f1, f2, e1]

theorem bearerParts_eq_some_iff (ps : List (List Char)) (t : String) :
    bearerParts ps = some t ↔ ps = ["Bearer".data, t.data] := by
  rcases ps with _ | ⟨p0, _ | ⟨p1, _ | ⟨p2, rest⟩⟩⟩
  · simp [bearerParts]
  · simp [bearerParts]
  · simp only [bearerParts]
    by_cases hb : p0 = "Bearer".data
    · rw [if_pos hb]
      subst hb
      constructor
      · intro he
        injection he with e
        rw [← e]
      · intro he
        injection he with _ e2
        injection e2 with e3
        rw [e3]
    · rw [if_neg hb]
      constructor
      · intro he
        exact absurd he (by simp)
      · intro he
        injection he with e1 _
        exact absurd e1 hb
  · simp [bearerParts]

theorem isValidEmail_decomp (email : String) (hv : isValidEmail email = true) :
    ∃ a b c : List Char,
      email.data = a ++ '@' :: (b ++ '.' :: c) ∧
      a ≠ [] ∧ b ≠ [] ∧ c ≠ [] ∧
      a.all emailChar = true ∧ b.all emailChar = true ∧ c.all emailChar = true := by
  unfold isValidEmail at hv
  rw [List.any_eq_true] at hv
  obtain ⟨i, -, hi⟩ := hv
  rw [List.any_eq_true] at hi
  obtain ⟨j, -, hj⟩ := hi
  unfold emailDecompAt at hj
  simp only [Bool.and_eq_true, decide_eq_true_eq, and_assoc] at hj
  obtain ⟨heq, ha, hb, hc, h1, h2, h3⟩ := hj
  exact ⟨_, _, _, heq, ha, hb, hc, h1, h2, h3⟩

theorem valid_email_last_emailChar (email : String) (hv : isValidEmail email = true) :
    ∃ ch, email.data.getLast? = some ch ∧ emailChar ch = true := by
  obtain ⟨a, b, c, heq, -, -, hc, -, -, hall⟩ := isValidEmail_decomp email hv
  have hcl : c.getLast? = some (c.getLast hc) := List.getLast?_eq_getLast_of_ne_nil hc
  refine ⟨c.getLast hc, ?_, ?_⟩
  · rw [heq, List.getLast?_append]
    have h3 : ('.' :: c).getLast? = some (c.getLast hc) := by
      show (['.'] ++ c).getLast? = _
      rw [List.getLast?_append, hcl]
      rfl
    have h2 : (b ++ '.' :: c).getLast? = some (c.getLast hc) := by
      rw [List.getLast?_append, h3]
      rfl
    have h1 : ('@' :: (b ++ '.' :: c)).getLast? = some (c.getLast hc) := by
      show (['@'] ++ (b ++ '.' :: c)).getLast? = _
      rw [List.getLast?_append, h2]
      rfl
    rw [h1]
    rfl
  · exact List.all_eq_true.mp hall _ (List.getLast_mem hc)

theorem isValidEmail_no_at (email : String) (h : '@' ∉ email.data) :
    isValidEmail email = false := by
  cases hcc : isValidEmail email
  · rfl
  · exfalso
    obtain ⟨a, b, c, heq, -⟩ := isValidEmail_decomp email hcc
    exact h (by rw [heq]; exact List.mem_append_right a (List.mem_cons_self _ _))

theorem isValidEmail_no_dot (email : String) (h : '.' ∉ email.data) :
    isValidEmail email = false := by
  cases hcc : isValidEmail email
  · rfl
  · exfalso
    obtain ⟨a, b, c, heq, -⟩ := isValidEmail_decomp email hcc
    refine h ?_
    rw [heq]
    exact List.mem_append_right a
      (List.mem_cons_of_mem '@' (List.mem_append_right b (List.mem_cons_self _ _)))

theorem isValidEmail_space (email : String) (h : ' ' ∈ email.data) :
    isValidEmail email = false := by
  cases hcc : isValidEmail email
  · rfl
  · exfalso
    obtain ⟨a, b, c, heq, -, -, -, ha, hb, hcall⟩ := isValidEmail_decomp email hcc
    rw [heq] at h
    rcases List.mem_append.mp h with h | h
    · exact absurd (List.all_eq_true.mp ha _ h) (by decide)
    · rcases List.mem_cons.mp h with h | h
      · exact absurd h (by decide)
      · rcases List.mem_append.mp h with h | h
        · exact absurd (List.all_eq_true.mp hb _ h) (by decide)
        · rcases List.mem_cons.mp h with h | h
          · exact absurd h (by decide)
          · exact absurd (List.all_eq_true.mp hcall _ h) (by decide)

theorem isValidEmail_trailing_at (loc : String) : isValidEmail (loc ++ "@") = false := by
  cases hcc : isValidEmail (loc ++ "@")
  · rfl
  · exfalso
    obtain ⟨ch, hlast, hch⟩ := valid_email_last_emailChar _ hcc
    rw [String.data_append] at hlast
    rw [List.getLast?_append] at hlast
    have hat : ch = '@' := by
      have : (some '@').or loc.data.getLast? = some ch := hlast
      injection this with e
      exact e.symm
    rw [hat] at hch
    exact absurd hch (by decide)

theorem loginUser_invalid_format
    (pverify : String → String → Bool) (genA genR : User → String)
    (now : Nat) (s : List User) (email password : String)
    (he : email ≠ "") (hp : password ≠ "") (hv : isValidEmail email = false) :
    LoginUser.execute pverify genA genR now s email password =
      (.error "Invalid email format", []) := by
  unfold LoginUser.execute
  rw [if_neg (by simp [he, hp]), hv]
  rfl

theorem loginUser_user_not_found
    (pverify : String → String → Bool) (genA genR : User → String)
    (now : Nat) (s : List User) (email password : String)
    (he : email ≠ "") (hp : password ≠ "") (hv : isValidEmail email = true)
    (hfu : findUserByEmail s email = none) :
    LoginUser.execute pverify genA genR now s email password =
      (.error "Invalid email or password", [.findByEmail email]) := by
  unfold LoginUser.execute
  rw [if_neg (by simp [he, hp]), hv, hfu]
  rfl

theorem loginUser_wrong_password
    (pverify : String → String → Bool) (genA genR : User → String)
    (now : Nat) (s : List User) (email password : String) (u : User)
    (he : email ≠ "") (hp : password ≠ "") (hv : isValidEmail email = true)
    (hfu : findUserByEmail s email = some u)
    (hpw : pverify password u.passwordHash = false) :
    LoginUser.execute pverify genA genR now s email password =
      (.error "Invalid email or password", [.findByEmail email]) := by
  unfold LoginUser.execute
  rw [if_neg (by simp [he, hp]), hv, hfu]
  show (if (!pverify password u.passwordHash) = true then _ else _) = _
  rw [hpw]
  rfl

theorem refreshToken_user_not_found
    (verify : String → Except String TokenPayload) (genA genR : User → String)
    (now : Nat) (s : List User) (t : String) (p : TokenPayload)
    (ht : t ≠ "") (hv : verify t = Except.ok p)
    (hu : findUserById s p.userId = none) :
    RefreshToken.execute verify genA genR now s t =
      (.error "User not found", [.findById p.userId]) := by
  unfold RefreshToken.execute
  rw [if_neg ht]
  simp only [hv, hu]

/-- C6: extractTokenFromHeader returns the token substring exactly when the
header is the two-token form Bearer-space-token with the case-sensitive
scheme name; every other shape (undefined, empty string, wrong or missing
scheme, more or fewer than two space-separated segments) yields null, and
the function is total (never throws). -/
theorem extractTokenFromHeader_bearer_only :
    TokenService.extractTokenFromHeader none = none ∧
    TokenService.extractTokenFromHeader (some "") = none ∧
    ∀ h t : String,
      TokenService.extractTokenFromHeader (some h) = some t ↔
        h = "Bearer " ++ t ∧ ' ' ∉ t.data := by
  refine ⟨rfl, rfl, fun h t => ?_⟩
  show (if h = "" then none else bearerParts (splitChar ' ' h.data)) = some t ↔ _
  by_cases hh : h = ""
  · rw [if_pos hh]
    constructor
    · intro he
      exact absurd he (by simp)
    · rintro ⟨he, -⟩
      exfalso
      have hl := congrArg String.length he
      rw [hh, String.length_append] at hl
      have h0 : (0 : Nat) = 7 + t.length := hl
      omega
  · rw [if_neg hh, bearerParts_eq_some_iff, splitChar_eq_pair_iff]
    constructor
    · rintro ⟨heq, -, hnt⟩
      refine ⟨?_, hnt⟩
      apply String.ext
      rw [String.data_append, heq]
      rfl
    · rintro ⟨heq, hnt⟩
      refine ⟨?_, by decide, hnt⟩
      rw [heq, String.data_append]
      rfl

/-- C6 witness: the concrete scenarios from the spec. -/
theorem extractTokenFromHeader_bearer_only_witness :
    TokenService.extractTokenFromHeader (some "Bearer abc.def.ghi") = some "abc.def.ghi" ∧
    TokenService.extractTokenFromHeader (some "Basic xyz") = none := by
  constructor
  · exact (extractTokenFromHeader_bearer_only.2.2 "Bearer abc.def.ghi" "abc.def.ghi").mpr
      ⟨by decide, by decide⟩
  · decide

/-- C4 counterexample: when the underlying bcrypt comparison rejects (in
bcryptjs this happens for a malformed 60-character hash with an invalid
salt header, e.g. sixty x characters, which rejects with an
Invalid-salt-version error), PasswordService.verify re-throws a typed
error instead of resolving to false: the claim that verify never throws
and resolves false on malformed hashes fails at this input. -/
theorem passwordVerify_throws_counterexample :
    PasswordService.verify (.error "Invalid salt version: xx") =
      .error "Failed to verify password: Invalid salt version: xx" ∧
    ∀ b : Bool, PasswordService.verify (.error "Invalid salt version: xx") ≠ .ok b := by
  constructor
  · rfl
  · intro b h
    exact Except.noConfusion h

/-- C4 (amended): verify resolves to exactly the boolean the underlying
bcrypt comparison resolves to (bcryptjs itself resolves false for
malformed hashes of the wrong length, so those return false), and when
the underlying comparison rejects, verify rejects with the typed
Failed-to-verify-password error rather than resolving to false. -/
theorem passwordVerify_propagates (o : Except String Bool) :
    (∀ b, o = .ok b → PasswordService.verify o = .ok b) ∧
    (∀ e, o = .error e →
      PasswordService.verify o = .error ("Failed to verify password: " ++ e)) := by
  constructor
  · intro b hb
    rw [hb]
    rfl
  · intro e he
    rw [he]
    rfl

/-- C4 witness: a resolved comparison passes through unchanged. -/
theorem passwordVerify_propagates_witness :
    PasswordService.verify (.ok false) = .ok false :=
  (passwordVerify_propagates (.ok false)).1 false rfl

/-- C3: with a well-formed non-empty login request, the user-not-found run
and the wrong-password run reject with exactly the same error value
(message Invalid email or password) and the same repository trace, so the
two causes are indistinguishable to the caller. -/
theorem login_generic_credential_error
    (pverify : String → String → Bool) (genA genR : User → String)
    (now : Nat) (s : List User) (email password : String)
    (he : email ≠ "") (hp : password ≠ "") (hv : isValidEmail email = true) :
    (findUserByEmail s email = none →
      LoginUser.execute pverify genA genR now s email password =
        (.error "Invalid email or password", [.findByEmail email])) ∧
    (∀ u, findUserByEmail s email = some u →
      pverify password u.passwordHash = false →
      LoginUser.execute pverify genA genR now s email password =
        (.error "Invalid email or password", [.findByEmail email])) := by
  constructor
  · intro hfu
    exact loginUser_user_not_found pverify genA genR now s email password he hp hv hfu
  · intro u hfu hpw
    exact loginUser_wrong_password pverify genA genR now s email password u he hp hv hfu hpw

/-- C3 witness: scenario B, wrong password against an empty store and a
populated store. -/
theorem login_generic_credential_error_witness :
    LoginUser.execute (fun _ _ => false) (fun _ => "a") (fun _ => "r") 0 []
      "u@x.com" "wrong" = (.error "Invalid email or password", [.findByEmail "u@x.com"]) :=
  (login_generic_credential_error (fun _ _ => false) (fun _ => "a") (fun _ => "r") 0 []
    "u@x.com" "wrong" (by decide) (by decide) (by decide)).1 rfl

/-- C5 counterexample: the email user-at-domain.com-dot has a trailing dot,
yet the regex accepts it (the last segment of the pattern may itself
contain the dot), so the Login Flow does not reject it with Invalid email
format: with an empty store it proceeds to the user lookup and fails with
Invalid email or password instead. -/
theorem login_email_trailing_dot_counterexample :
    isValidEmail "user@domain.com." = true ∧
    (LoginUser.execute (fun _ _ => false) (fun _ => "a") (fun _ => "r") 0 []
      "user@domain.com." "pw").1 = .error "Invalid email or password" := by
  exact ⟨by decide, by rfl⟩

/-- C5 (amended): for every non-empty login request, the email-shape check
rejects emails with a missing at sign, embedded spaces, no dot at all
(missing TLD), a missing domain (at sign as final character), and a
trailing dot when it is the only dot of the domain (such as a@b.);
rejection yields exactly the Invalid email format error with an empty
repository trace, i.e. before any user-repository operation. An email
whose domain has an interior dot is accepted even with a trailing dot
(see the counterexample), which is the only part of the original claim
that fails. -/
theorem login_email_validation_families
    (pverify : String → String → Bool) (genA genR : User → String)
    (now : Nat) (s : List User) (email password : String)
    (he : email ≠ "") (hp : password ≠ "") :
    (isValidEmail email = false →
      LoginUser.execute pverify genA genR now s email password =
        (.error "Invalid email format", [])) ∧
    ('@' ∉ email.data → isValidEmail email = false) ∧
    (' ' ∈ email.data → isValidEmail email = false) ∧
    ('.' ∉ email.data → isValidEmail email = false) ∧
    (∀ loc : String, isValidEmail (loc ++ "@") = false) ∧
    isValidEmail "a@b." = false := by
  refine ⟨?_, isValidEmail_no_at email, isValidEmail_space email,
    isValidEmail_no_dot email, isValidEmail_trailing_at, by decide⟩
  intro hv
  exact loginUser_invalid_format pverify genA genR now s email password he hp hv

/-- C5 witness: the single-dot trailing-dot email a@b. is rejected before
any repository access. -/
theorem login_email_validation_families_witness :
    LoginUser.execute (fun _ _ => false) (fun _ => "a") (fun _ => "r") 0 []
      "a@b." "pw" = (.error "Invalid email format", []) :=
  (login_email_validation_families (fun _ _ => false) (fun _ => "a") (fun _ => "r") 0 []
    "a@b." "pw" (by decide) (by decide)).1 (by decide)

/-- C9: the concrete Mongoose user repository finders catch any storage
rejection and resolve to null instead of propagating it; composed with the
flows, a lookup that yields null surfaces as Invalid email or password in
the Login Flow and as User not found in the Token Refresh Flow. -/
theorem mongoose_finders_catch_to_null
    (db : String → Except String (Option User)) (id email : String) :
    (∀ e, db id = .error e → MongooseUserRepository.findById db id = none) ∧
    (∀ e, db email.toLower = .error e → MongooseUserRepository.findByEmail db email = none) ∧
    (∀ pverify genA genR now s password, email ≠ "" → password ≠ "" →
      isValidEmail email = true → findUserByEmail s email = none →
      (LoginUser.execute pverify genA genR now s email password).1 =
        .error "Invalid email or password") ∧
    (∀ verify genA genR now s p t, t ≠ "" → verify t = Except.ok p →
      findUserById s p.userId = none →
      (RefreshToken.execute verify genA genR now s t).1 = .error "User not found") := by
  refine ⟨?_, ?_, ?_, ?_⟩
  · intro e he
    unfold MongooseUserRepository.findById
    rw [he]
  · intro e he
    unfold MongooseUserRepository.findByEmail
    rw [he]
  · intro pverify genA genR now s password he hp hv hfu
    rw [loginUser_user_not_found pverify genA genR now s email password he hp hv hfu]
  · intro verify genA genR now s p t ht hv hu
    rw [refreshToken_user_not_found verify genA genR now s t p ht hv hu]

/-- C9 witness: a rejecting database call yields null from findById, and
the refresh flow then reports User not found. -/
theorem mongoose_finders_catch_to_null_witness :
    MongooseUserRepository.findById (fun _ => .error "connection lost") "u1" = none ∧
    (RefreshToken.execute sampleVerify (fun _ => "a") (fun _ => "r") 0 [] "t1").1 =
      .error "User not found" := by
  constructor
  · exact (mongoose_finders_catch_to_null (fun _ => .error "connection lost") "u1" "e").1
      "connection lost" rfl
  · exact (mongoose_finders_catch_to_null (fun _ => .error "x") "u1" "e").2.2.2
      sampleVerify (fun _ => "a") (fun _ => "r") 0 [] sampleRefreshPayload "t1"
      (by decide) rfl rfl

/-- C10: whenever the Login Flow rejects with one of the three
input/credential failure messages, its repository trace contains no
mutating operation and replaying the trace leaves the store unchanged. -/
theorem login_failure_preserves_store
    (pverify : String → String → Bool) (genA genR : User → String)
    (now : Nat) (s : List User) (email password : String) (msg : String)
    (hmsg : msg = "Email and password are required" ∨ msg = "Invalid email format" ∨
      msg = "Invalid email or password")
    (herr : (LoginUser.execute pverify genA genR now s email password).1 = .error msg) :
    (LoginUser.execute pverify genA genR now s email password).2.all
      (fun op => !op.isMutating) = true ∧
    runOps s (LoginUser.execute pverify genA genR now s email password).2 = s := by
  by_cases h1 : email = "" ∨ password = ""
  · rw [show LoginUser.execute pverify genA genR now s email password =
      (.error "Email and password are required", []) from by
        unfold LoginUser.execute
        rw [if_pos h1]]
    exact ⟨rfl, rfl⟩
  · have he : email ≠ "" := fun h => h1 (Or.inl h)
    have hp : password ≠ "" := fun h => h1 (Or.inr h)
    cases hval : isValidEmail email
    · rw [loginUser_invalid_format pverify genA genR now s email password he hp hval]
      exact ⟨rfl, rfl⟩
    · cases hfu : findUserByEmail s email with
      | none =>
        rw [loginUser_user_not_found pverify genA genR now s email password he hp hval hfu]
        exact ⟨rfl, rfl⟩
      | some u =>
        cases hpw : pverify password u.passwordHash
        · rw [loginUser_wrong_password pverify genA genR now s email password u he hp hval hfu hpw]
          exact ⟨rfl, rfl⟩
        · exfalso
          have hok : LoginUser.execute pverify genA genR now s email password =
              (.ok { user := { id := u.id, email := u.email, permissions := u.permissions },
                     accessToken := genA u, refreshToken := genR u },
               [.findByEmail email, .cleanExpiredTokens u.id now,
                .addRefreshToken u.id
                  { token := genR u, expiresAt := now + 604800000, createdAt := now }]) := by
            unfold LoginUser.execute
            rw [if_neg h1, hval, hfu]
            show (if (!pverify password u.passwordHash) = true then _ else _) = _
            rw [hpw]
            rfl
          rw [hok] at herr
          exact Except.noConfusion herr

/-- C10 witness: a wrong-password rejection leaves the sample store
unchanged with a read-only trace. -/
theorem login_failure_preserves_store_witness :
    (LoginUser.execute (fun _ _ => false) (fun _ => "a") (fun _ => "r") 0 [sampleUser]
      "u@x.com" "wrong").2.all (fun op => !op.isMutating) = true ∧
    runOps [sampleUser] (LoginUser.execute (fun _ _ => false) (fun _ => "a") (fun _ => "r") 0
      [sampleUser] "u@x.com" "wrong").2 = [sampleUser] :=
  login_failure_preserves_store (fun _ _ => false) (fun _ => "a") (fun _ => "r") 0 [sampleUser]
    "u@x.com" "wrong" "Invalid email or password" (Or.inr (Or.inr rfl)) (by rfl)

theorem checkType_pass
    (fb : String → Except String (Option User)) (payload : TokenPayload)
    (now : Nat) (req : ValidateTokenRequest)
    (h : ∀ tt, req.requiredTokenType = some tt → TokenService.isTokenType payload tt = true) :
    ValidateToken.checkType fb payload now req =
      ValidateToken.checkPermission fb payload now req := by
  unfold ValidateToken.checkType
  cases htt : req.requiredTokenType with
  | none => rfl
  | some tt =>
    show (if (!TokenService.isTokenType payload tt) = true then _ else _) =
      ValidateToken.checkPermission fb payload now req
    rw [h tt htt]
    rfl

theorem checkPermission_pass
    (fb : String → Except String (Option User)) (payload : TokenPayload)
    (now : Nat) (req : ValidateTokenRequest)
    (h : ∀ p, req.requiredPermission = some p → TokenService.hasPermission payload p = true) :
    ValidateToken.checkPermission fb payload now req =
      ValidateToken.lookupStep fb payload now req.token := by
  unfold ValidateToken.checkPermission
  cases hp : req.requiredPermission with
  | none => rfl
  | some p =>
    show (if (!TokenService.hasPermission payload p) = true then _ else _) =
      ValidateToken.lookupStep fb payload now req.token
    rw [h p hp]
    rfl

theorem storedCheck_false (u : User) (t : String) (now : Nat)
    (hall : ∀ td ∈ u.refreshTokens, td.token = t → td.expiresAt ≤ now) :
    (u.refreshTokens.any fun td => td.token == t && decide (now < td.expiresAt)) = false := by
  rw [List.any_eq_false]
  intro td hmem
  by_cases htok : td.token = t
  · have hle := hall td hmem htok
    simp [htok, Nat.not_lt.mpr hle]
  · simp [htok]

/-- C2: ValidateToken.execute is a total function into the tagged result
type (it never throws), and when the user lookup rejects with any error
while all prior checks pass, the result is the tagged failure with message
Token validation failed. -/
theorem validateToken_never_throws
    (verify : String → Except String TokenPayload)
    (fb : String → Except String (Option User)) (now : Nat)
    (req : ValidateTokenRequest) :
    (∃ r : ValidateTokenResponse × List RepoOp,
      ValidateToken.execute verify fb now req = r) ∧
    (∀ payload e,
      req.token ≠ "" →
      verify req.token = Except.ok payload →
      (∀ tt, req.requiredTokenType = some tt → TokenService.isTokenType payload tt = true) →
      (∀ p, req.requiredPermission = some p → TokenService.hasPermission payload p = true) →
      fb payload.userId = Except.error e →
      ValidateToken.execute verify fb now req =
        ({ isValid := false, payload := none, user := none,
           error := some "Token validation failed" }, [RepoOp.findById payload.userId])) := by
  refine ⟨⟨_, rfl⟩, ?_⟩
  intro payload e ht hv htt hperm hfb
  unfold ValidateToken.execute
  rw [if_neg ht]
  simp only [hv]
  rw [checkType_pass fb payload now req htt, checkPermission_pass fb payload now req hperm]
  unfold ValidateToken.lookupStep
  rw [hfb]

/-- C2 witness: a throwing repository during the lookup of a refresh-token
validation yields the tagged Token-validation-failed result. -/
theorem validateToken_never_throws_witness :
    ValidateToken.execute (fun _ => Except.ok sampleRefreshPayload)
      (fun _ => Except.error "db down") 0
      { token := "t1", requiredPermission := none, requiredTokenType := none } =
      ({ isValid := false, payload := none, user := none,
         error := some "Token validation failed" }, [RepoOp.findById "u1"]) := by
  have h := (validateToken_never_throws (fun _ => Except.ok sampleRefreshPayload)
    (fun _ => Except.error "db down") 0
    { token := "t1", requiredPermission := none, requiredTokenType := none }).2
    sampleRefreshPayload "db down" (by decide) rfl
    (fun tt h => by exact absurd h (by simp)) (fun p h => by exact absurd h (by simp)) rfl
  exact h

/-- C7: validating a still-valid access-type token against a store-backed
repository returns the valid result with the payload and user projection,
records only the read-only findById operation, leaves the store unchanged
when the trace is replayed, and a second identical call on the resulting
store returns the identical result. -/
theorem validateToken_access_idempotent
    (verify : String → Except String TokenPayload) (now : Nat) (s : List User)
    (t : String) (p : TokenPayload) (u : User)
    (ht : t ≠ "") (hv : verify t = Except.ok p)
    (hty : p.type = TokenType.ACCESS)
    (hu : findUserById s p.userId = some u) :
    ValidateToken.execute verify (storeFindById s) now
      { token := t, requiredPermission := none, requiredTokenType := none } =
      ({ isValid := true, payload := some p,
         user := some { id := u.id, email := u.email, permissions := u.permissions },
         error := none }, [RepoOp.findById p.userId]) ∧
    (RepoOp.findById p.userId).isMutating = false ∧
    runOps s [RepoOp.findById p.userId] = s ∧
    ValidateToken.execute verify (storeFindById (runOps s [RepoOp.findById p.userId])) now
      { token := t, requiredPermission := none, requiredTokenType := none } =
      ValidateToken.execute verify (storeFindById s) now
      { token := t, requiredPermission := none, requiredTokenType := none } := by
  have hrun : ValidateToken.execute verify (storeFindById s) now
      { token := t, requiredPermission := none, requiredTokenType := none } =
      ({ isValid := true, payload := some p,
         user := some { id := u.id, email := u.email, permissions := u.permissions },
         error := none }, [RepoOp.findById p.userId]) := by
    unfold ValidateToken.execute
    rw [if_neg ht]
    simp only [hv]
    rw [checkType_pass _ p now _ (fun tt h => by exact absurd h (by simp))]
    rw [checkPermission_pass _ p now _ (fun pr h => by exact absurd h (by simp))]
    unfold ValidateToken.lookupStep
    show (match storeFindById s p.userId with
      | .error _ => _ | .ok none => _ | .ok (some user) => _) = _
    unfold storeFindById
    rw [hu]
    show (ValidateToken.afterUser p now t u, _) = _
    unfold ValidateToken.afterUser
    rw [hty]
    rfl
  exact ⟨hrun, rfl, rfl, rfl⟩

/-- C7 witness: the sample access token validated twice against the sample
store. -/
theorem validateToken_access_idempotent_witness :
    ValidateToken.execute (fun _ => Except.ok sampleAccessPayload)
      (storeFindById [sampleUser]) 0
      { token := "a1", requiredPermission := none, requiredTokenType := none } =
      ({ isValid := true, payload := some sampleAccessPayload,
         user := some { id := "u1", email := "u@x.com",
                        permissions := [Permission.READ_POSTS] },
         error := none }, [RepoOp.findById "u1"]) ∧
    runOps [sampleUser] [RepoOp.findById "u1"] = [sampleUser] := by
  have h := validateToken_access_idempotent (fun _ => Except.ok sampleAccessPayload) 0
    [sampleUser] "a1" sampleAccessPayload sampleUser (by decide) rfl rfl rfl
  exact ⟨h.1, h.2.2.1⟩

/-- C8: a stored refresh-token entry whose expiry is at or before the
current instant (including exactly equal) is treated as invalid by both
flows even though it is still physically present in the collection: the
Token Refresh Flow rejects with Invalid or expired refresh token and the
Token Validation Flow with Refresh token not found or expired. -/
theorem expired_entries_treated_invalid
    (verify : String → Except String TokenPayload) (genA genR : User → String)
    (now : Nat) (s : List User) (u : User) (t : String) (p : TokenPayload)
    (td : RefreshTokenData)
    (ht : t ≠ "") (hv : verify t = Except.ok p) (hpid : p.userId = u.id)
    (hty : p.type = TokenType.REFRESH)
    (hu : findUserById s u.id = some u)
    (hmem : td ∈ u.refreshTokens) (htok : td.token = t) (hexp : td.expiresAt ≤ now)
    (hall : ∀ td2 ∈ u.refreshTokens, td2.token = t → td2.expiresAt ≤ now) :
    (RefreshToken.execute verify genA genR now s t).1 =
      .error "Invalid or expired refresh token" ∧
    (ValidateToken.execute verify (storeFindById s) now
      { token := t, requiredPermission := none, requiredTokenType := none }).1 =
      { isValid := false, payload := none, user := none,
        error := some "Refresh token not found or expired" } := by
  have hchk := storedCheck_false u t now hall
  constructor
  · unfold RefreshToken.execute
    rw [if_neg ht]
    simp only [hv, hpid, hu]
    rw [hchk]
    rfl
  · unfold ValidateToken.execute
    rw [if_neg ht]
    simp only [hv]
    rw [checkType_pass _ p now _ (fun tt h => by exact absurd h (by simp))]
    rw [checkPermission_pass _ p now _ (fun pr h => by exact absurd h (by simp))]
    unfold ValidateToken.lookupStep
    show ((match storeFindById s p.userId with
      | .error _ => _ | .ok none => _ | .ok (some user) => _) :
        ValidateTokenResponse × List RepoOp).1 = _
    unfold storeFindById
    rw [hpid, hu]
    show ValidateToken.afterUser p now t u = _
    unfold ValidateToken.afterUser
    rw [hty, hchk]
    rfl

/-- C8 witness: the sample user with a stored entry expiring exactly at the
current instant (boundary case) is rejected by both flows although the
entry is still present. -/
theorem expired_entries_treated_invalid_witness :
    (RefreshToken.execute sampleVerify (fun _ => "a") (fun _ => "r") 1000
      [sampleUser] "t1").1 = .error "Invalid or expired refresh token" ∧
    (ValidateToken.execute sampleVerify (storeFindById [sampleUser]) 1000
      { token := "t1", requiredPermission := none, requiredTokenType := none }).1 =
      { isValid := false, payload := none, user := none,
        error := some "Refresh token not found or expired" } := by
  have h := expired_entries_treated_invalid sampleVerify (fun _ => "a") (fun _ => "r") 1000
    [sampleUser] sampleUser "t1" sampleRefreshPayload
    { token := "t1", expiresAt := 1000, createdAt := 0 }
    (by decide) rfl rfl rfl rfl (by simp [sampleUser]) rfl (by decide)
    (by
      intro td2 hmem htok
      have : td2 = { token := "t1", expiresAt := 1000, createdAt := 0 } := by
        simpa [sampleUser] using hmem
      rw [this])
  exact h

theorem findUserById_updateUser (s : List User) (id : String) (f : User → User)
    (hf : ∀ u, (f u).id = u.id) (id2 : String) :
    findUserById (updateUser s id f) id2 =
      (findUserById s id2).map fun u => if u.id == id then f u else u := by
  induction s with
  | nil => rfl
  | cons v vs ih =>
    show findUserById ((if v.id == id then f v else v) :: updateUser vs id f) id2 = _
    unfold findUserById
    by_cases hv2 : (v.id == id2) = true
    · have h2 : ((if v.id == id then f v else v).id == id2) = true := by
        by_cases hvid : (v.id == id) = true
        · rw [if_pos hvid, hf v]
          exact hv2
        · rw [if_neg hvid]
          exact hv2
      have e1 : List.find? (fun u => u.id == id2)
          ((if v.id == id then f v else v) :: updateUser vs id f) =
          some (if v.id == id then f v else v) :=
        List.find?_cons_of_pos _ h2
      have e2 : List.find? (fun u => u.id == id2) (v :: vs) = some v :=
        List.find?_cons_of_pos _ hv2
      rw [e1, e2]
      rfl
    · have h2 : ¬ ((if v.id == id then f v else v).id == id2) = true := by
        by_cases hvid : (v.id == id) = true
        · rw [if_pos hvid, hf v]
          exact hv2
        · rw [if_neg hvid]
          exact hv2
      have e1 : List.find? (fun u => u.id == id2)
          ((if v.id == id then f v else v) :: updateUser vs id f) =
          List.find? (fun u => u.id == id2) (updateUser vs id f) :=
        List.find?_cons_of_neg _ h2
      have e2 : List.find? (fun u => u.id == id2) (v :: vs) =
          List.find? (fun u => u.id == id2) vs :=
        List.find?_cons_of_neg _ hv2
      rw [e1, e2]
      exact ih

theorem updateUser_updateUser (s : List User) (id : String) (f g : User → User)
    (hf : ∀ u, (f u).id = u.id) :
    updateUser (updateUser s id f) id g = updateUser s id fun u => g (f u) := by
  unfold updateUser
  rw [List.map_map]
  apply List.map_congr_left
  intro u _
  show (if (if u.id == id then f u else u).id == id then g (if u.id == id then f u else u)
    else (if u.id == id then f u else u)) = if u.id == id then g (f u) else u
  by_cases hid : (u.id == id) = true
  · simp only [if_pos hid]
    rw [hf u, if_pos hid]
  · simp only [if_neg hid]

theorem any_token_filter_ne (l : List RefreshTokenData) (t : String) (now : Nat) :
    ((l.filter fun td => !(td.token == t)).any
      fun td => td.token == t && decide (now < td.expiresAt)) = false := by
  rw [List.any_eq_false]
  intro td hmem
  have hne := (List.mem_filter.mp hmem).2
  simp only [Bool.not_eq_true'] at hne
  simp [hne]

theorem refreshToken_success_run
    (verify : String → Except String TokenPayload) (genA genR : User → String)
    (now : Nat) (s : List User) (u : User) (t : String) (p : TokenPayload)
    (ht : t ≠ "") (hv : verify t = Except.ok p) (hpid : p.userId = u.id)
    (hu : findUserById s u.id = some u)
    (hchk : (u.refreshTokens.any fun td => td.token == t && decide (now < td.expiresAt)) = true) :
    RefreshToken.execute verify genA genR now s t =
      (.ok { user := { id := u.id, email := u.email, permissions := u.permissions },
             accessToken := genA u, refreshToken := genR u },
       [.findById p.userId, .cleanExpiredTokens u.id now, .removeRefreshToken u.id t,
        .addRefreshToken u.id
          { token := genR u, expiresAt := now + 604800000, createdAt := now }]) := by
  unfold RefreshToken.execute
  rw [if_neg ht]
  simp only [hv, hpid, hu]
  rw [hchk]
  rfl

theorem rotation_store (s : List User) (u : User) (t : String) (now : Nat)
    (newTok : String) (pid : String)
    (hu : findUserById s u.id = some u) :
    findUserById (runOps s
      [RepoOp.findById pid, RepoOp.cleanExpiredTokens u.id now,
       RepoOp.removeRefreshToken u.id t,
       RepoOp.addRefreshToken u.id
         { token := newTok, expiresAt := now + 604800000, createdAt := now }]) u.id =
      some (afterRotation u t now newTok) := by
  show findUserById
    (updateUser (updateUser (updateUser s u.id (cleanFn now)) u.id (removeFn t)) u.id
      (addFn { token := newTok, expiresAt := now + 604800000, createdAt := now })) u.id = _
  rw [updateUser_updateUser s u.id (cleanFn now) (removeFn t) (fun v => rfl)]
  rw [updateUser_updateUser s u.id (fun v => removeFn t (cleanFn now v))
    (addFn { token := newTok, expiresAt := now + 604800000, createdAt := now }) (fun v => rfl)]
  rw [findUserById_updateUser s u.id
    (fun v => addFn { token := newTok, expiresAt := now + 604800000, createdAt := now }
      (removeFn t (cleanFn now v))) (fun v => rfl) u.id]
  rw [hu]
  show some (if u.id == u.id then
    addFn { token := newTok, expiresAt := now + 604800000, createdAt := now }
      (removeFn t (cleanFn now u)) else u) = _
  rw [if_pos (beq_self_eq_true u.id)]
  rfl

theorem afterRotation_check_old (u : User) (t : String) (now : Nat) (newTok : String)
    (hne : newTok ≠ t) :
    ((afterRotation u t now newTok).refreshTokens.any
      fun td => td.token == t && decide (now < td.expiresAt)) = false := by
  simp only [afterRotation, addFn, removeFn, cleanFn]
  rw [List.any_append, any_token_filter_ne]
  simp [hne]

theorem afterRotation_check_new (u : User) (t : String) (now : Nat) (newTok : String) :
    ((afterRotation u t now newTok).refreshTokens.any
      fun td => td.token == newTok && decide (now < td.expiresAt)) = true := by
  simp only [afterRotation, addFn, removeFn, cleanFn]
  rw [List.any_eq_true]
  refine ⟨{ token := newTok, expiresAt := now + 604800000, createdAt := now }, ?_, ?_⟩
  · exact List.mem_append_right _ (List.mem_cons_self _ _)
  · simp only [beq_self_eq_true, Bool.true_and, decide_eq_true_eq]
    omega

/-- C1: a successful Token Refresh Flow run with a stored, unexpired
refresh token t returns the newly issued pair and a trace that removes t
before adding the new token; on the resulting store the user document has
exactly the rotated collection (old entry removed, new entry appended
with expiry now plus seven days), a second run presented with the
original t rejects with Invalid or expired refresh token, and a run
presented with the new token succeeds. -/
theorem refreshToken_rotation
    (verify : String → Except String TokenPayload) (genA genR : User → String)
    (now : Nat) (s : List User) (u : User) (t : String) (p p2 : TokenPayload)
    (ht : t ≠ "") (hnew : genR u ≠ t) (hnew2 : genR u ≠ "")
    (hu : findUserById s u.id = some u)
    (hstored : ∃ td ∈ u.refreshTokens, td.token = t ∧ now < td.expiresAt)
    (hv : verify t = Except.ok p) (hpid : p.userId = u.id)
    (hv2 : verify (genR u) = Except.ok p2) (hpid2 : p2.userId = u.id) :
    RefreshToken.execute verify genA genR now s t =
      (.ok { user := { id := u.id, email := u.email, permissions := u.permissions },
             accessToken := genA u, refreshToken := genR u },
       [.findById p.userId, .cleanExpiredTokens u.id now, .removeRefreshToken u.id t,
        .addRefreshToken u.id
          { token := genR u, expiresAt := now + 604800000, createdAt := now }]) ∧
    findUserById (runOps s (RefreshToken.execute verify genA genR now s t).2) u.id =
      some (afterRotation u t now (genR u)) ∧
    (RefreshToken.execute verify genA genR now
        (runOps s (RefreshToken.execute verify genA genR now s t).2) t).1 =
      .error "Invalid or expired refresh token" ∧
    (RefreshToken.execute verify genA genR now
        (runOps s (RefreshToken.execute verify genA genR now s t).2) (genR u)).1 =
      .ok { user := { id := u.id, email := u.email, permissions := u.permissions },
            accessToken := genA (afterRotation u t now (genR u)),
            refreshToken := genR (afterRotation u t now (genR u)) } := by
  have hchk : (u.refreshTokens.any
      fun td => td.token == t && decide (now < td.expiresAt)) = true := by
    rw [List.any_eq_true]
    obtain ⟨td, hmem, htok, hlt⟩ := hstored
    exact ⟨td, hmem, by simp [htok, hlt]⟩
  have h1 := refreshToken_success_run verify genA genR now s u t p ht hv hpid hu hchk
  have hs2 := rotation_store s u t now (genR u) u.id hu
  refine ⟨h1, ?_, ?_, ?_⟩
  · rw [h1]
    exact rotation_store s u t now (genR u) p.userId hu
  · rw [h1]
    unfold RefreshToken.execute
    rw [if_neg ht]
    simp only [hv, hpid, hs2]
    rw [afterRotation_check_old u t now (genR u) hnew]
    rfl
  · rw [h1]
    unfold RefreshToken.execute
    rw [if_neg hnew2]
    simp only [hv2, hpid2, hpid, hs2]
    rw [afterRotation_check_new u t now (genR u)]
    rfl

/-- C1 witness: the sample user rotates t1 into t2; the reused t1 is then
rejected while t2 succeeds. -/
theorem refreshToken_rotation_witness :
    (RefreshToken.execute sampleVerify (fun _ => "a1") (fun _ => "t2") 500
      [sampleUser] "t1").1 =
      .ok { user := { id := "u1", email := "u@x.com",
                      permissions := [Permission.READ_POSTS] },
            accessToken := "a1", refreshToken := "t2" } ∧
    (RefreshToken.execute sampleVerify (fun _ => "a1") (fun _ => "t2") 500
      (runOps [sampleUser]
        (RefreshToken.execute sampleVerify (fun _ => "a1") (fun _ => "t2") 500
          [sampleUser] "t1").2) "t1").1 =
      .error "Invalid or expired refresh token" ∧
    (RefreshToken.execute sampleVerify (fun _ => "a1") (fun _ => "t2") 500
      (runOps [sampleUser]
        (RefreshToken.execute sampleVerify (fun _ => "a1") (fun _ => "t2") 500
          [sampleUser] "t1").2) "t2").1 =
      .ok { user := { id := "u1", email := "u@x.com",
                      permissions := [Permission.READ_POSTS] },
            accessToken := "a1", refreshToken := "t2" } := by
  have h := refreshToken_rotation sampleVerify (fun _ => "a1") (fun _ => "t2") 500
    [sampleUser] sampleUser "t1" sampleRefreshPayload sampleRefreshPayload
    (by decide) (by decide) (by decide) rfl
    ⟨{ token := "t1", expiresAt := 1000, createdAt := 0 }, by decide, rfl, by decide⟩
    rfl rfl rfl rfl
  refine ⟨?_, h.2.2.1, h.2.2.2⟩
  rw [h.1]
  rfl

end BlogApi
